import Mathlib

/-!
Verification development for the channel-tracking bot (`src/bot.py`).

The program keeps an SQLite table `channels` of tracked channels, reconciles
it against the live set of channel memberships reported by the platform, and
refreshes stale subscriber counts with significance filtering and throttling.

Shallow embedding conventions:
* The SQLite table is a `List ChannelRec`; `id INTEGER PRIMARY KEY` keeps ids
  unique in the real store, but theorems avoid relying on uniqueness unless
  they state the hypothesis.
* Timestamps (`time.time()`, the `last_checked` column) are modelled as `Int`
  at whole-second precision; every input in the claims is integral.
* The Telegram client is abstracted: `get_channel_info` is modelled over a
  per-attempt gateway oracle (for the flood-wait retry recursion), while the
  reconciliation loops consume the *resolved* outcome of a fetch as a
  function `fetch : Int → InfoOutcome`.
* Notifications (`send_admin_notification`) are recorded structurally; each
  constructor carries exactly the values the corresponding f-string in the
  source interpolates.
-/

namespace ChannelTr

/-- A row of the `channels` table created by `init_db`:
`(id INTEGER PRIMARY KEY, title TEXT, access_hash INTEGER, link TEXT,
subscribers INTEGER DEFAULT 0, last_checked REAL DEFAULT 0)`. -/
structure ChannelRec where
  id : Int
  title : String
  access_hash : Option Int
  link : Option String
  subscribers : Int
  last_checked : Int
  deriving DecidableEq, Repr

/-- The dictionary `get_channel_info` returns on the success path
(`'id'/'title'/'access_hash'/'link'/'subscribers'`, no `'error'` key). -/
structure ChannelInfo where
  id : Int
  title : String
  access_hash : Option Int
  link : Option String
  subscribers : Int
  deriving DecidableEq, Repr

/-- Resolved outcome of `get_channel_info` as seen by its callers:
`success` is a dict without an `'error'` key, `failure` is a dict carrying an
`'error'` key (invalid peer / not participant / private / admin required /
unexpected), `notChannel` is the `None` return for a non-channel peer. -/
inductive InfoOutcome where
  | success (info : ChannelInfo)
  | failure (id : Int) (title : String) (error : String)
  | notChannel
  deriving DecidableEq, Repr

/-- `True` exactly when the caller-side guard
`channel_info and not channel_info.get('error')` passes. -/
def InfoOutcome.isOk : InfoOutcome → Bool
  | .success _ => true
  | _ => false

/-- An admin notification, recorded structurally: each constructor carries
the values the corresponding f-string in `bot.py` interpolates. -/
inductive Notification where
  | newChannel (title : String) (subscribers : Int)
  | removedPoll (title : String) (subscribers : Int)
  | removedEvent (channel_id : Int) (data : Option (String × Int × Option String))
  | subChange (title : String) (oldSubs newSubs : Int)
  deriving DecidableEq, Repr

/-! ### Database functions (`bot.py` lines 23–101) -/

/-- The id column of a full table scan (`{c[0] for c in db_channels}`). -/
def dbIds (db : List ChannelRec) : List Int :=
  db.map (·.id)

/-- `add_channel_to_db`: `INSERT OR REPLACE INTO channels
(id, title, access_hash, link, subscribers) VALUES (?,?,?,?,?)`.
`REPLACE` deletes any row with the same primary key and inserts a fresh row;
the unlisted column `last_checked` takes its declared default `0`.
The returned flag is `cursor.rowcount > 0`, which is true whenever the
insert itself succeeds. -/
def add_channel_to_db (db : List ChannelRec) (channel_id : Int) (title : String)
    (access_hash : Option Int) (link : Option String) (subscribers : Int) :
    List ChannelRec × Bool :=
  (db.filter (fun r => decide (r.id ≠ channel_id)) ++
    [⟨channel_id, title, access_hash, link, subscribers, 0⟩], true)

/-- `remove_channel_from_db`: `DELETE FROM channels WHERE id = ?`;
returns `cursor.rowcount > 0`, i.e. whether a row with that id existed. -/
def remove_channel_from_db (db : List ChannelRec) (channel_id : Int) :
    List ChannelRec × Bool :=
  (db.filter (fun r => decide (r.id ≠ channel_id)),
   db.any (fun r => decide (r.id = channel_id)))

/-- `update_channel_subscribers`: `UPDATE channels SET subscribers = ?,
last_checked = ? WHERE id = ?`, with `time.time()` passed explicitly as
`now`; returns `cursor.rowcount > 0`. -/
def update_channel_subscribers (db : List ChannelRec) (channel_id : Int)
    (subscribers : Int) (now : Int) : List ChannelRec × Bool :=
  (db.map (fun r => if r.id = channel_id
      then { r with subscribers := subscribers, last_checked := now } else r),
   db.any (fun r => decide (r.id = channel_id)))

/-- `next((c for c in channels if c[0] == channel_id), None)`:
first stored row with the given id, if any. -/
def lookupChannel (db : List ChannelRec) (channel_id : Int) : Option ChannelRec :=
  db.find? (fun r => decide (r.id = channel_id))

/-! ### Membership diff (`poll_channels` lines 370–380) -/

/-- `new_channels = current_channels - db_ids`, kept in live-listing order. -/
def new_channels (live : List Int) (db : List ChannelRec) : List Int :=
  live.filter (fun i => decide (i ∉ dbIds db))

/-- `removed_channels = db_ids - current_channels`, kept in table-scan order. -/
def removed_channels (live : List Int) (db : List ChannelRec) : List Int :=
  (dbIds db).filter (fun i => decide (i ∉ live))

/-- C1: for live membership id set L and stored id set S, the reconciliation
diff computes `new_channels = L − S` and `removed_channels = S − L`, and no
channel id is in both sets. -/
theorem new_removed_channels_diff (live : List Int) (db : List ChannelRec) :
    (new_channels live db).toFinset = live.toFinset \ (dbIds db).toFinset ∧
    (removed_channels live db).toFinset = (dbIds db).toFinset \ live.toFinset ∧
    ∀ i : Int, ¬ (i ∈ new_channels live db ∧ i ∈ removed_channels live db) := by
  refine ⟨?_, ?_, ?_⟩
  · ext i
    simp [new_channels, List.mem_filter]
  · ext i
    simp [removed_channels, List.mem_filter]
  · intro i hi
    rcases hi with ⟨h1, h2⟩
    simp [new_channels, List.mem_filter] at h1
    simp [removed_channels, List.mem_filter] at h2
    exact h2.2 h1.1

/-! ### Gateway and `get_channel_info` (`bot.py` lines 105–159) -/

/-- One underlying attempt of the Telegram client inside `get_channel_info`:
either it yields a channel entity (plus subscriber count), raises one of the
errors mapped to an error dict, finds a non-channel peer, or raises
`FloodWaitError(seconds)`. -/
inductive GatewayResult where
  | ok (info : ChannelInfo)
  | errorDict (title : String) (error : String)
  | notChannel
  | floodWait (seconds : Nat)
  deriving DecidableEq, Repr

/-- `get_channel_info(peer)` over a per-attempt gateway oracle `gw` (the
result of the `k`-th underlying attempt). On `FloodWaitError(s)` the source
sleeps `s` seconds and *recursively re-invokes itself*
(`return await get_channel_info(peer)`), so the retry depth is unbounded;
`fuel` bounds the recursion in the embedding and `none` models
non-termination (fuel exhausted while the gateway keeps flood-waiting).
The second component is the list of sleep durations performed, one per
retry. -/
def get_channel_info (gw : Nat → GatewayResult) (peer : Int) :
    Nat → Nat → Option (InfoOutcome × List Nat)
  | 0, _ => none
  | fuel + 1, k =>
    match gw k with
    | .ok info => some (.success info, [])
    | .errorDict t e => some (.failure peer t e, [])
    | .notChannel => some (.notChannel, [])
    | .floodWait s =>
      match get_channel_info gw peer fuel (k + 1) with
      | none => none
      | some (out, sleeps) => some (out, s :: sleeps)

/-! ### Membership reconciliation (`poll_channels` lines 368–409)

`fetch : Int → InfoOutcome` is the resolved outcome of `get_channel_info`
for each channel id during one polling cycle. -/

/-- Lines 383–399: for each id in `new_channels`, fetch its info and, when
the fetch succeeded (`channel_info and not channel_info.get('error')`),
upsert it via `add_channel_to_db` and send the "New channel detected!"
notification (sent unconditionally after the add on this path; the add's
return value is not consulted). The dialog-entity lookup always succeeds
because the id was taken from the same `dialogs` list. -/
def processNew (fetch : Int → InfoOutcome) :
    List ChannelRec → List Int → List ChannelRec × List Notification
  | db, [] => (db, [])
  | db, cid :: ids =>
    match fetch cid with
    | .success info =>
      let db' := (add_channel_to_db db info.id info.title info.access_hash
        info.link info.subscribers).1
      let rest := processNew fetch db' ids
      (rest.1, .newChannel info.title info.subscribers :: rest.2)
    | _ => processNew fetch db ids

/-- Lines 401–409: for each id in `removed_channels`, look its row up in
`db_map` (built from the table scan taken *before* the add/remove loops),
and `if channel_data and remove_channel_from_db(channel_id):` send the
"Removed from channel!" notification carrying the pre-deletion title and
subscriber count. -/
def processRemoved (dbOrig : List ChannelRec) :
    List ChannelRec → List Int → List ChannelRec × List Notification
  | db, [] => (db, [])
  | db, cid :: ids =>
    match lookupChannel dbOrig cid with
    | some r =>
      let rm := remove_channel_from_db db cid
      let rest := processRemoved dbOrig rm.1 ids
      if rm.2 then (rest.1, .removedPoll r.title r.subscribers :: rest.2)
      else rest
    | none => processRemoved dbOrig db ids

/-- The membership-reconciliation part of one `poll_channels` cycle
(lines 368–409): diff the live id set against the stored id set, process
the additions, then process the removals (against the pre-cycle `db_map`). -/
def reconcileMembership (fetch : Int → InfoOutcome) (live : List Int)
    (db : List ChannelRec) : List ChannelRec × List Notification :=
  let st1 := processNew fetch db (new_channels live db)
  let st2 := processRemoved db st1.1 (removed_channels live db)
  (st2.1, st1.2 ++ st2.2)

/-! ### Subscriber refresh (`poll_channels` lines 411–440) -/

/-- Line 413: `[c for c in db_channels if time.time() - c[5] > 86400]`. -/
def channels_to_update (now : Int) (db : List ChannelRec) : List ChannelRec :=
  db.filter (fun c => decide (now - c.last_checked > 86400))

/-- Lines 418–436, the body for one selected channel at zero-based loop
index `idx`: fetch; on success, update the stored count and `last_checked`
when `abs(new − old) > 50`, notify additionally when `abs(new − old) > 100`,
and (still inside the success branch) sleep 2 seconds when `idx % 10 == 0`.
The third component records the indices at which that pause fired. -/
def refreshChannel (fetch : Int → InfoOutcome) (now : Int) (idx : Nat)
    (db : List ChannelRec) (c : ChannelRec) :
    List ChannelRec × List Notification × List Nat :=
  match fetch c.id with
  | .success info =>
    let st :=
      if |info.subscribers - c.subscribers| > 50 then
        ((update_channel_subscribers db c.id info.subscribers now).1,
         if |info.subscribers - c.subscribers| > 100 then
           [Notification.subChange c.title c.subscribers info.subscribers]
         else [])
      else (db, [])
    (st.1, st.2, if idx % 10 = 0 then [idx] else [])
  | _ => (db, [], [])

/-- The tail of the refresh loop starting at index `idx`. -/
def refreshGo (fetch : Int → InfoOutcome) (now : Int) :
    Nat → List ChannelRec → List ChannelRec →
    List ChannelRec × List Notification × List Nat
  | _, db, [] => (db, [], [])
  | idx, db, c :: cs =>
    let r := refreshChannel fetch now idx db c
    let rest := refreshGo fetch now (idx + 1) r.1 cs
    (rest.1, r.2.1 ++ rest.2.1, r.2.2 ++ rest.2.2)

/-- Lines 417–440: `for idx, channel in enumerate(channels_to_update)`. -/
def refreshLoop (fetch : Int → InfoOutcome) (now : Int)
    (db : List ChannelRec) (sel : List ChannelRec) :
    List ChannelRec × List Notification × List Nat :=
  refreshGo fetch now 0 db sel

/-! ### Bulk range add (`add_range_command` lines 299–359) -/

/-- Result of a `/add_range` run: the store, `total_channels`
(`end_id - start_id + 1` after normalisation), `added_count`, the
incremental progress edits (pairs `(i + 1, added_count)` issued when
`i % 50 == 0 or i == total_channels - 1`), the offsets `i` at which the
`i % 10 == 0` pause fired, and the final completion report
`(total_channels, added_count)`. -/
structure RangeResult where
  db : List ChannelRec
  total : Int
  added : Nat
  progress : List (Nat × Nat)
  pauses : List Nat
  report : Int × Nat
  deriving DecidableEq, Repr

/-- Loop body of `add_range_command` over the remaining offsets `i` of
`enumerate(range(start_id, end_id + 1))`. An id equal to `ADMIN_ID` is
skipped by `continue` (skipping the progress edit and the pause as well);
a fetch failure (`NotAccessible`/`Failure`) just fails the
`channel_info and not ... 'error'` guard and the offset still gets its
progress edit and pause, so the rest of the range proceeds. -/
def addRangeGo (fetch : Int → InfoOutcome) (admin_id start_id : Int)
    (n : Nat) :
    List Nat → List ChannelRec → Nat → List (Nat × Nat) → List Nat →
    List ChannelRec × Nat × List (Nat × Nat) × List Nat
  | [], db, added, progress, pauses => (db, added, progress, pauses)
  | i :: is, db, added, progress, pauses =>
    let cid : Int := start_id + (i : Int)
    if cid = admin_id then addRangeGo fetch admin_id start_id n is db added progress pauses
    else
      let st :=
        match fetch cid with
        | .success info =>
          let a := add_channel_to_db db info.id info.title info.access_hash
            info.link info.subscribers
          if a.2 then (a.1, added + 1) else (a.1, added)
        | _ => (db, added)
      let progress' :=
        if i % 50 = 0 ∨ i = n - 1 then progress ++ [(i + 1, st.2)] else progress
      let pauses' := if i % 10 = 0 then pauses ++ [i] else pauses
      addRangeGo fetch admin_id start_id n is st.1 st.2 progress' pauses'

/-- `add_range_command(start_id, end_id)` on store `db`: normalise the
range, run the loop over every offset, and issue the completion report
`Total processed: {total_channels} / Channels added: {added_count}`. -/
def add_range_command (fetch : Int → InfoOutcome) (admin_id : Int)
    (start_id end_id : Int) (db : List ChannelRec) : RangeResult :=
  let s := if start_id > end_id then end_id else start_id
  let e := if start_id > end_id then start_id else end_id
  let total : Int := e - s + 1
  let n : Nat := total.toNat
  let r := addRangeGo fetch admin_id s n (List.range n) db 0 [] []
  ⟨r.1, total, r.2.1, r.2.2.1, r.2.2.2, (total, r.2.1)⟩

/-! ### Leave/kick event path (`handle_chat_action` lines 200–214) -/

/-- On `user_left`/`user_kicked` in a channel: scan the table, capture the
row for the chat id (before deleting), then
`if remove_channel_from_db(channel_id):` send "Removed from channel!" with
the pre-deletion title/subscribers/link appended when the row was found. -/
def handle_left_event (db : List ChannelRec) (channel_id : Int) :
    List ChannelRec × List Notification :=
  let channel_data := lookupChannel db channel_id
  let rm := remove_channel_from_db db channel_id
  if rm.2 then
    (rm.1, [.removedEvent channel_id
      (channel_data.map (fun r => (r.title, r.subscribers, r.link)))])
  else (rm.1, [])

/-! ### Helper lemmas about the store representation -/

theorem find?_append_or {α : Type} (p : α → Bool) (l1 l2 : List α) :
    (l1 ++ l2).find? p = (l1.find? p).or (l2.find? p) := by
  induction l1 with
  | nil => rfl
  | cons a l ih =>
    cases hpa : p a <;> simp [List.find?, hpa, ih]

theorem find?_filter_of_imp {α : Type} {p q : α → Bool} (l : List α)
    (hpq : ∀ a, p a = true → q a = true) :
    (l.filter q).find? p = l.find? p := by
  induction l with
  | nil => rfl
  | cons a l ih =>
    cases hqa : q a
    · have hpa : p a = false := by
        cases hpa : p a
        · rfl
        · exact absurd (hpq a hpa) (by simp [hqa])
      simp [List.filter_cons, hqa, List.find?, hpa, ih]
    · cases hpa : p a <;> simp [List.filter_cons, hqa, List.find?, hpa, ih]

theorem mem_dbIds (db : List ChannelRec) (x : Int) :
    x ∈ dbIds db ↔ ∃ r ∈ db, r.id = x := by
  simp [dbIds, List.mem_map]

theorem lookupChannel_mem (db : List ChannelRec) (cid : Int) (r : ChannelRec)
    (h : lookupChannel db cid = some r) : r ∈ db ∧ r.id = cid := by
  refine ⟨List.mem_of_find?_eq_some h, ?_⟩
  have := List.find?_some h
  simpa using this

theorem lookupChannel_isSome_iff (db : List ChannelRec) (cid : Int) :
    (lookupChannel db cid).isSome ↔ cid ∈ dbIds db := by
  constructor
  · intro h
    obtain ⟨r, hr⟩ := Option.isSome_iff_exists.mp h
    obtain ⟨hmem, hid⟩ := lookupChannel_mem db cid r hr
    exact (mem_dbIds db cid).mpr ⟨r, hmem, hid⟩
  · intro h
    obtain ⟨r, hmem, hid⟩ := (mem_dbIds db cid).mp h
    rcases ho : lookupChannel db cid with _ | r'
    · have := List.find?_eq_none.mp ho r hmem
      simp [hid] at this
    · simp

theorem remove_flag_true (db : List ChannelRec) (cid : Int) (r : ChannelRec)
    (hmem : r ∈ db) (hid : r.id = cid) :
    (remove_channel_from_db db cid).2 = true := by
  simp only [remove_channel_from_db]
  exact List.any_eq_true.mpr ⟨r, hmem, by simp [hid]⟩

theorem mem_dbIds_remove (db : List ChannelRec) (cid x : Int) :
    x ∈ dbIds (remove_channel_from_db db cid).1 ↔ x ∈ dbIds db ∧ x ≠ cid := by
  simp only [remove_channel_from_db, dbIds, List.mem_map, List.mem_filter]
  constructor
  · rintro ⟨r, ⟨hmem, hne⟩, hid⟩
    simp only [decide_eq_true_eq] at hne
    exact ⟨⟨r, hmem, hid⟩, hid ▸ hne⟩
  · rintro ⟨⟨r, hmem, hid⟩, hne⟩
    exact ⟨r, ⟨hmem, by simp [hid, hne]⟩, hid⟩

theorem mem_dbIds_add (db : List ChannelRec) (cid : Int) (t : String)
    (h : Option Int) (l : Option String) (s : Int) (x : Int) :
    x ∈ dbIds (add_channel_to_db db cid t h l s).1 ↔ x ∈ dbIds db ∨ x = cid := by
  simp only [add_channel_to_db, dbIds, List.map_append, List.mem_append,
    List.mem_map, List.mem_filter, List.map_cons, List.map_nil,
    List.mem_singleton]
  constructor
  · rintro (⟨r, ⟨hmem, _⟩, hid⟩ | hx)
    · exact Or.inl ⟨r, hmem, hid⟩
    · exact Or.inr hx
  · rintro (⟨r, hmem, hid⟩ | hx)
    · by_cases hxc : x = cid
      · exact Or.inr hxc
      · exact Or.inl ⟨r, ⟨hmem, by simp [hid, hxc]⟩, hid⟩
    · exact Or.inr hx

/-! ### Per-operation lookup characterisations -/

theorem lookupChannel_add (db : List ChannelRec) (cid : Int) (t : String)
    (h : Option Int) (l : Option String) (s : Int) (x : Int) :
    lookupChannel (add_channel_to_db db cid t h l s).1 x =
      if x = cid then some ⟨cid, t, h, l, s, 0⟩ else lookupChannel db x := by
  by_cases hx : x = cid
  · subst hx
    simp only [add_channel_to_db, lookupChannel, if_pos rfl]
    rw [find?_append_or]
    have hnone : (db.filter (fun r => decide (r.id ≠ x))).find?
        (fun r => decide (r.id = x)) = none := by
      apply List.find?_eq_none.mpr
      intro r hr
      have := (List.mem_filter.mp hr).2
      simp only [decide_eq_true_eq] at this ⊢
      exact this
    rw [hnone]
    simp [List.find?]
  · simp only [add_channel_to_db, lookupChannel, if_neg hx]
    rw [find?_append_or]
    have hdec : decide (cid = x) = false := decide_eq_false (fun hc => hx hc.symm)
    have htail : ([(⟨cid, t, h, l, s, 0⟩ : ChannelRec)]).find?
        (fun r => decide (r.id = x)) = none := by
      simp [List.find?, hdec]
    rw [htail, find?_filter_of_imp]
    · simp
    · intro a ha
      simp only [decide_eq_true_eq] at ha ⊢
      rw [ha]
      exact fun hc => hx hc

theorem lookupChannel_update (db : List ChannelRec) (cid : Int) (s now : Int)
    (x : Int) :
    lookupChannel (update_channel_subscribers db cid s now).1 x =
      if x = cid then
        (lookupChannel db cid).map
          (fun r => { r with subscribers := s, last_checked := now })
      else lookupChannel db x := by
  simp only [update_channel_subscribers, lookupChannel]
  rw [List.find?_map]
  have hpred : (fun r => decide (ChannelRec.id
      (if r.id = cid then { r with subscribers := s, last_checked := now }
        else r) = x)) = (fun r : ChannelRec => decide (r.id = x)) := by
    funext r
    by_cases hr : r.id = cid <;> simp [hr]
  rw [show ((fun r : ChannelRec => decide (r.id = x)) ∘
      (fun r => if r.id = cid then { r with subscribers := s, last_checked := now }
        else r)) = (fun r : ChannelRec => decide (r.id = x)) from hpred]
  by_cases hx : x = cid
  · subst hx
    rw [if_pos rfl]
    rcases hf : db.find? (fun r : ChannelRec => decide (r.id = x)) with _ | r
    · rfl
    · have hr : r.id = x := by simpa using List.find?_some hf
      simp [hr]
  · rw [if_neg hx]
    rcases hf : db.find? (fun r : ChannelRec => decide (r.id = x)) with _ | r
    · rfl
    · have hr : r.id = x := by simpa using List.find?_some hf
      have : ¬ r.id = cid := by rw [hr]; exact hx
      simp [this]

theorem lookupChannel_remove (db : List ChannelRec) (cid : Int) (x : Int) :
    lookupChannel (remove_channel_from_db db cid).1 x =
      if x = cid then none else lookupChannel db x := by
  by_cases hx : x = cid
  · subst hx
    simp only [remove_channel_from_db, lookupChannel, if_pos rfl]
    apply List.find?_eq_none.mpr
    intro r hr
    have := (List.mem_filter.mp hr).2
    simpa using this
  · simp only [remove_channel_from_db, lookupChannel, if_neg hx]
    apply find?_filter_of_imp
    intro a ha
    simp only [decide_eq_true_eq] at ha ⊢
    rw [ha]
    exact fun hc => hx hc

/-- C5: subscriber-refresh selection uses the strict comparison
`time.time() - c[5] > 86400`: a stored channel is selected iff
`now − last_checked > 86400`; in particular `last_checked = now − 86401`
is selected and `last_checked = now − 86399` is not. -/
theorem stale_selection_strict (now : Int) (db : List ChannelRec) :
    (∀ c : ChannelRec, c ∈ channels_to_update now db ↔
      c ∈ db ∧ now - c.last_checked > 86400) ∧
    (∀ c ∈ db, c.last_checked = now - 86401 → c ∈ channels_to_update now db) ∧
    (∀ c ∈ db, c.last_checked = now - 86399 → c ∉ channels_to_update now db) := by
  refine ⟨fun c => ?_, fun c hc hl => ?_, fun c hc hl hmem => ?_⟩
  · simp [channels_to_update, List.mem_filter]
  · simp only [channels_to_update, List.mem_filter, decide_eq_true_eq]
    exact ⟨hc, by rw [hl]; omega⟩
  · have := (List.mem_filter.mp hmem).2
    simp only [decide_eq_true_eq] at this
    rw [hl] at this
    omega

/-- Witness for C5 at `now = 100000`: the channel with
`last_checked = 13599 = now − 86401` is selected, the one with
`last_checked = 13601 = now − 86399` is not. -/
theorem stale_selection_strict_witness :
    (⟨1, "a", none, none, 0, 13599⟩ : ChannelRec) ∈
      channels_to_update 100000
        [⟨1, "a", none, none, 0, 13599⟩, ⟨2, "b", none, none, 0, 13601⟩] ∧
    (⟨2, "b", none, none, 0, 13601⟩ : ChannelRec) ∉
      channels_to_update 100000
        [⟨1, "a", none, none, 0, 13599⟩, ⟨2, "b", none, none, 0, 13601⟩] := by
  have h := stale_selection_strict 100000
    [⟨1, "a", none, none, 0, 13599⟩, ⟨2, "b", none, none, 0, 13601⟩]
  exact ⟨h.2.1 _ (by simp) (by norm_num), h.2.2 _ (by simp) (by norm_num)⟩

/-- C10: re-adding an already-tracked id via `add_channel_to_db` replaces
the whole row (`INSERT OR REPLACE` with `last_checked` not among the
written columns), so `last_checked` falls back to the column default `0`
rather than being preserved; the re-added row is therefore selected as
stale by the next refresh cycle whenever `now > 86400`. -/
theorem readd_resets_last_checked (db : List ChannelRec) (cid : Int)
    (t : String) (h : Option Int) (l : Option String) (s : Int)
    (rOld : ChannelRec) (_hr : lookupChannel db cid = some rOld) :
    lookupChannel (add_channel_to_db db cid t h l s).1 cid =
      some ⟨cid, t, h, l, s, 0⟩ ∧
    ∀ now : Int, now > 86400 →
      (⟨cid, t, h, l, s, 0⟩ : ChannelRec) ∈
        channels_to_update now (add_channel_to_db db cid t h l s).1 := by
  refine ⟨by rw [lookupChannel_add, if_pos rfl], fun now hnow => ?_⟩
  apply List.mem_filter.mpr
  refine ⟨?_, ?_⟩
  · simp [add_channel_to_db]
  · simp only [decide_eq_true_eq]
    omega

/-- Witness for C10: the tracked row `⟨7, "old", …, last_checked 555⟩`
re-added with fresh metadata ends up with `last_checked = 0` and is
immediately stale at `now = 90000`. -/
theorem readd_resets_last_checked_witness :
    lookupChannel (add_channel_to_db [⟨7, "old", none, none, 3, 555⟩]
        7 "new" none none 9).1 7 = some ⟨7, "new", none, none, 9, 0⟩ ∧
    (⟨7, "new", none, none, 9, 0⟩ : ChannelRec) ∈
      channels_to_update 90000
        (add_channel_to_db [⟨7, "old", none, none, 3, 555⟩] 7 "new" none none 9).1 := by
  have h := readd_resets_last_checked [⟨7, "old", none, none, 3, 555⟩]
    7 "new" none none 9 ⟨7, "old", none, none, 3, 555⟩ (by decide)
  exact ⟨h.1, h.2 90000 (by norm_num)⟩

/-- C6: a channel removed by the poll diff or by a leave/kick event has its
stored row read before the delete is issued; the removal notification
carries the pre-deletion title/subscribers (and link, on the event path)
while the store afterwards no longer contains the id. -/
theorem removal_notification_predelete (db : List ChannelRec) (cid : Int)
    (r : ChannelRec) (hr : lookupChannel db cid = some r) :
    processRemoved db db [cid] =
      ((remove_channel_from_db db cid).1,
       [.removedPoll r.title r.subscribers]) ∧
    handle_left_event db cid =
      ((remove_channel_from_db db cid).1,
       [.removedEvent cid (some (r.title, r.subscribers, r.link))]) ∧
    ∀ rSurvivor ∈ (remove_channel_from_db db cid).1, rSurvivor.id ≠ cid := by
  obtain ⟨hmem, hid⟩ := lookupChannel_mem db cid r hr
  have hflag := remove_flag_true db cid r hmem hid
  refine ⟨?_, ?_, ?_⟩
  · simp [processRemoved, hr, hflag]
  · simp [handle_left_event, hr, hflag]
  · intro rSurvivor hs
    have := (List.mem_filter.mp hs).2
    simpa using this

/-- Witness for C6, the spec's example: removing `{id 5, title "X",
subscribers 200}` yields notifications carrying `"X"` and `200`, and no
surviving row has id 5. -/
theorem removal_notification_predelete_witness :
    processRemoved [⟨5, "X", none, some "L", 200, 77⟩]
        [⟨5, "X", none, some "L", 200, 77⟩] [5] =
      ((remove_channel_from_db [⟨5, "X", none, some "L", 200, 77⟩] 5).1,
       [.removedPoll "X" 200]) ∧
    handle_left_event [⟨5, "X", none, some "L", 200, 77⟩] 5 =
      ((remove_channel_from_db [⟨5, "X", none, some "L", 200, 77⟩] 5).1,
       [.removedEvent 5 (some ("X", 200, some "L"))]) ∧
    ∀ rSurvivor ∈ (remove_channel_from_db
        [⟨5, "X", none, some "L", 200, 77⟩] 5).1, rSurvivor.id ≠ 5 :=
  removal_notification_predelete [⟨5, "X", none, some "L", 200, 77⟩] 5
    ⟨5, "X", none, some "L", 200, 77⟩ (by decide)

/-- C4: in the refresh step at the default thresholds (50/100), for old
count `o = c.subscribers` and freshly fetched count `n`: the store is
written (count and `last_checked` together) iff `|n − o| > 50`; when
`|n − o| ≤ 50` the store — the whole row, `last_checked` included — is
left completely unchanged; and a notification is emitted iff
`|n − o| > 100`. -/
theorem refresh_thresholds (fetch : Int → InfoOutcome) (now : Int)
    (idx : Nat) (db : List ChannelRec) (c : ChannelRec) (info : ChannelInfo)
    (hf : fetch c.id = .success info) :
    (|info.subscribers - c.subscribers| > 50 →
      (refreshChannel fetch now idx db c).1 =
        (update_channel_subscribers db c.id info.subscribers now).1 ∧
      lookupChannel (refreshChannel fetch now idx db c).1 c.id =
        (lookupChannel db c.id).map
          (fun r => { r with subscribers := info.subscribers, last_checked := now })) ∧
    (|info.subscribers - c.subscribers| ≤ 50 →
      (refreshChannel fetch now idx db c).1 = db) ∧
    ((refreshChannel fetch now idx db c).2.1 ≠ [] ↔
      |info.subscribers - c.subscribers| > 100) := by
  refine ⟨fun h50 => ?_, fun h50 => ?_, ?_⟩
  · have hdb : (refreshChannel fetch now idx db c).1 =
        (update_channel_subscribers db c.id info.subscribers now).1 := by
      simp only [refreshChannel, hf, if_pos h50]
    refine ⟨hdb, ?_⟩
    rw [hdb, lookupChannel_update, if_pos rfl]
  · simp only [refreshChannel, hf]
    rw [if_neg (by omega)]
  · constructor
    · intro hne
      by_contra h100
      have h100' : ¬ |info.subscribers - c.subscribers| > 100 := h100
      by_cases h50 : |info.subscribers - c.subscribers| > 50
      · simp [refreshChannel, hf, if_pos h50, if_neg h100'] at hne
      · simp [refreshChannel, hf, if_neg h50] at hne
    · intro h100
      have h50 : |info.subscribers - c.subscribers| > 50 := by omega
      simp [refreshChannel, hf, if_pos h50, if_pos h100]

/-- Witness for C4: with old count 0, a fetched count of 51 rewrites the
row (`subscribers := 51`, `last_checked := now`) without a notification;
a fetched count of 101 rewrites the row and notifies. -/
theorem refresh_thresholds_witness :
    (refreshChannel (fun _ => .success ⟨1, "t", none, none, 51⟩) 777 3
        [⟨1, "t", none, none, 0, 0⟩] ⟨1, "t", none, none, 0, 0⟩).1 =
      (update_channel_subscribers [⟨1, "t", none, none, 0, 0⟩] 1 51 777).1 ∧
    (refreshChannel (fun _ => .success ⟨1, "t", none, none, 51⟩) 777 3
        [⟨1, "t", none, none, 0, 0⟩] ⟨1, "t", none, none, 0, 0⟩).2.1 = [] ∧
    (refreshChannel (fun _ => .success ⟨1, "t", none, none, 101⟩) 777 3
        [⟨1, "t", none, none, 0, 0⟩] ⟨1, "t", none, none, 0, 0⟩).1 =
      (update_channel_subscribers [⟨1, "t", none, none, 0, 0⟩] 1 101 777).1 ∧
    (refreshChannel (fun _ => .success ⟨1, "t", none, none, 101⟩) 777 3
        [⟨1, "t", none, none, 0, 0⟩] ⟨1, "t", none, none, 0, 0⟩).2.1 ≠ [] := by
  have h51 := refresh_thresholds (fun _ => .success ⟨1, "t", none, none, 51⟩)
    777 3 [⟨1, "t", none, none, 0, 0⟩] ⟨1, "t", none, none, 0, 0⟩
    ⟨1, "t", none, none, 51⟩ rfl
  have h101 := refresh_thresholds (fun _ => .success ⟨1, "t", none, none, 101⟩)
    777 3 [⟨1, "t", none, none, 0, 0⟩] ⟨1, "t", none, none, 0, 0⟩
    ⟨1, "t", none, none, 101⟩ rfl
  refine ⟨(h51.1 (by norm_num)).1, ?_, (h101.1 (by norm_num)).1, ?_⟩
  · by_contra hne
    have := h51.2.2.mp hne
    norm_num at this
  · exact h101.2.2.mpr (by norm_num)

/-- C3: the fields `subscribers` and `last_checked` are only ever written
together. `add_channel_to_db` (`INSERT OR REPLACE`) rewrites the whole row
(`subscribers` from the fetch, `last_checked` to the column default `0`);
`update_channel_subscribers` sets exactly the pair
`(subscribers, last_checked)` of the targeted row; `remove_channel_from_db`
deletes the row, writing neither field of any survivor; and neither the
refresh step nor the new-channel step touches the store at all unless the
gateway fetch succeeded. -/
theorem subscribers_last_checked_together (db : List ChannelRec) (cid : Int)
    (t : String) (h : Option Int) (l : Option String) (s now : Int) :
    (∀ x : Int, lookupChannel (add_channel_to_db db cid t h l s).1 x =
      if x = cid then some ⟨cid, t, h, l, s, 0⟩ else lookupChannel db x) ∧
    (∀ x : Int, lookupChannel (update_channel_subscribers db cid s now).1 x =
      if x = cid then (lookupChannel db cid).map
        (fun r => { r with subscribers := s, last_checked := now })
      else lookupChannel db x) ∧
    (∀ x : Int, lookupChannel (remove_channel_from_db db cid).1 x =
      if x = cid then none else lookupChannel db x) ∧
    (∀ (fetch : Int → InfoOutcome) (now' : Int) (idx : Nat) (c : ChannelRec),
      (fetch c.id).isOk = false →
      refreshChannel fetch now' idx db c = (db, [], [])) ∧
    (∀ (fetch : Int → InfoOutcome) (cid' : Int),
      (fetch cid').isOk = false → processNew fetch db [cid'] = (db, [])) := by
  refine ⟨fun x => lookupChannel_add db cid t h l s x,
    fun x => lookupChannel_update db cid s now x,
    fun x => lookupChannel_remove db cid x,
    fun fetch now' idx c hfail => ?_, fun fetch cid' hfail => ?_⟩
  · cases hf : fetch c.id with
    | success info => rw [hf] at hfail; simp [InfoOutcome.isOk] at hfail
    | failure i ti e => simp [refreshChannel, hf]
    | notChannel => simp [refreshChannel, hf]
  · cases hf : fetch cid' with
    | success info => rw [hf] at hfail; simp [InfoOutcome.isOk] at hfail
    | failure i ti e => simp [processNew, hf]
    | notChannel => simp [processNew, hf]

/-- Witness for C3: the lookup characterisations at a concrete store and a
failed fetch leaving the store untouched. -/
theorem subscribers_last_checked_together_witness :
    (lookupChannel (add_channel_to_db [⟨1, "a", none, none, 5, 9⟩]
        1 "b" none none 6).1 1 = some ⟨1, "b", none, none, 6, 0⟩) ∧
    (lookupChannel (update_channel_subscribers [⟨1, "a", none, none, 5, 9⟩]
        1 6 42).1 1 = some ⟨1, "a", none, none, 6, 42⟩) ∧
    refreshChannel (fun _ => .failure 1 "Unknown (Error)" "boom") 42 0
      [⟨1, "a", none, none, 5, 9⟩] ⟨1, "a", none, none, 5, 9⟩ =
      ([⟨1, "a", none, none, 5, 9⟩], [], []) ∧
    processNew (fun _ => .failure 1 "Unknown (Error)" "boom")
      [⟨1, "a", none, none, 5, 9⟩] [3] = ([⟨1, "a", none, none, 5, 9⟩], []) := by
  have hAdd := subscribers_last_checked_together
    [⟨1, "a", none, none, 5, 9⟩] 1 "b" none none 6 0
  have hUpd := subscribers_last_checked_together
    [⟨1, "a", none, none, 5, 9⟩] 1 "a" none none 6 42
  refine ⟨?_, ?_, ?_, ?_⟩
  · rw [hAdd.1 1, if_pos rfl]
  · rw [hUpd.2.1 1, if_pos rfl]
    decide
  · exact hUpd.2.2.2.1 (fun _ => .failure 1 "Unknown (Error)" "boom")
      42 0 ⟨1, "a", none, none, 5, 9⟩ rfl
  · exact hUpd.2.2.2.2 (fun _ => .failure 1 "Unknown (Error)" "boom") 3 rfl

/-- C7 counterexample: the claim says a fetch hitting `RateLimited(s)`
sleeps `s` and then retries the same reference *exactly once*. The source
handles `FloodWaitError` by sleeping and re-invoking `get_channel_info`
recursively, so with a gateway that rate-limits the first two attempts
(3 seconds each) and succeeds on the third, the run performs two sleeps
and two retries — the sleep trace is `[3, 3]`, not the single-retry
trace `[3]`. -/
theorem ratelimit_single_retry_cex :
    get_channel_info
        (fun k => if k < 2 then .floodWait 3
          else .ok ⟨1, "t", none, none, 0⟩) 1 10 0 =
      some (.success ⟨1, "t", none, none, 0⟩, [3, 3]) ∧
    [3, 3] ≠ [3] := by
  exact ⟨rfl, by decide⟩

/-- C7 (amended): on `RateLimited(s)` the fetch sleeps `s` seconds and
recursively retries the same reference, repeating for as long as attempts
keep being rate-limited (the retry depth is unbounded, not capped at one);
in particular, when the first retry is not rate-limited, `RateLimited(s)`
yields exactly one `s`-unit delay before a single retry, and a second
rate-limited attempt yields a second sleep and a second retry. -/
theorem ratelimit_retry_recursive (gw : Nat → GatewayResult) (peer : Int)
    (fuel : Nat) (s0 s1 : Nat) (h0 : gw 0 = .floodWait s0) :
    ((∀ s, gw 1 ≠ .floodWait s) →
      ∃ out, get_channel_info gw peer (fuel + 2) 0 = some (out, [s0])) ∧
    (gw 1 = .floodWait s1 → (∀ s, gw 2 ≠ .floodWait s) →
      ∃ out, get_channel_info gw peer (fuel + 3) 0 = some (out, [s0, s1])) := by
  constructor
  · intro h1
    cases hg : gw 1 with
    | ok info =>
      exact ⟨.success info, by simp [get_channel_info, h0, hg]⟩
    | errorDict t e =>
      exact ⟨.failure peer t e, by simp [get_channel_info, h0, hg]⟩
    | notChannel =>
      exact ⟨.notChannel, by simp [get_channel_info, h0, hg]⟩
    | floodWait s =>
      exact absurd hg (h1 s)
  · intro h1 h2
    cases hg : gw 2 with
    | ok info =>
      exact ⟨.success info, by simp [get_channel_info, h0, h1, hg]⟩
    | errorDict t e =>
      exact ⟨.failure peer t e, by simp [get_channel_info, h0, h1, hg]⟩
    | notChannel =>
      exact ⟨.notChannel, by simp [get_channel_info, h0, h1, hg]⟩
    | floodWait s =>
      exact absurd hg (h2 s)

/-- Witness for the amended C7: with a gateway rate-limiting only the first
attempt at 3 seconds, the fetch performs exactly one 3-unit sleep before a
single retry. -/
theorem ratelimit_retry_recursive_witness :
    ∃ out, get_channel_info
        (fun k => if k = 0 then .floodWait 3
          else .ok ⟨1, "t", none, none, 0⟩) 1 2 0 = some (out, [3]) :=
  (ratelimit_retry_recursive
    (fun k => if k = 0 then .floodWait 3 else .ok ⟨1, "t", none, none, 0⟩)
    1 0 3 0 rfl).1 (fun s h => by simp at h)

theorem refreshGo_pauses (fetch : Int → InfoOutcome) (now : Int) :
    ∀ (sel : List ChannelRec) (k : Nat) (db : List ChannelRec),
    (refreshGo fetch now k db sel).2.2 =
      ((sel.enumFrom k).filter
        (fun p => decide (p.1 % 10 = 0) && (fetch p.2.id).isOk)).map Prod.fst := by
  intro sel
  induction sel with
  | nil => intro k db; rfl
  | cons c cs ih =>
    intro k db
    cases hf : fetch c.id with
    | success info =>
      by_cases hk : k % 10 = 0 <;>
        simp [refreshGo, refreshChannel, hf, ih, List.enumFrom,
          InfoOutcome.isOk, hk]
    | failure i t e =>
      simp [refreshGo, refreshChannel, hf, ih, List.enumFrom, InfoOutcome.isOk]
    | notChannel =>
      simp [refreshGo, refreshChannel, hf, ih, List.enumFrom, InfoOutcome.isOk]

theorem addRangeGo_pauses (fetch : Int → InfoOutcome) (admin s : Int)
    (n : Nat) : ∀ (offs : List Nat) (db : List ChannelRec) (added : Nat)
    (progress : List (Nat × Nat)) (pauses : List Nat),
    (addRangeGo fetch admin s n offs db added progress pauses).2.2.2 =
      pauses ++ offs.filter
        (fun (i : Nat) => decide (i % 10 = 0) && ! decide (s + (i : Int) = admin)) := by
  intro offs
  induction offs with
  | nil => intro db added progress pauses; simp [addRangeGo]
  | cons i is ih =>
    intro db added progress pauses
    by_cases hadm : s + (i : Int) = admin
    · simp [addRangeGo, hadm, ih]
    · by_cases hk : i % 10 = 0 <;>
        simp [addRangeGo, hadm, hk, ih]

/-- C9 counterexample: the claim says that during subscriber refresh the
engine pauses after every 10 processed channels, regardless of whether the
individual fetches succeeded. In the source the pause fires when
`idx % 10 == 0` (zero-based) and sits *inside* the successful-fetch
branch. Concretely: processing a single channel whose fetch succeeds
already pauses once (after the 1st channel, and 1 is not a multiple of
10), while processing eleven channels whose fetches all fail never pauses
at all (the claim requires a pause after the 10th). -/
theorem pause_after_first_channel_cex :
    ((refreshLoop (fun _ => .success ⟨1, "t", none, none, 0⟩) 0
        [⟨1, "t", none, none, 0, 0⟩] [⟨1, "t", none, none, 0, 0⟩]).2.2 = [0] ∧
      ¬ (0 + 1) % 10 = 0) ∧
    (refreshLoop (fun _ => .failure 1 "u" "e") 0
        (List.replicate 11 ⟨1, "t", none, none, 0, 0⟩)
        (List.replicate 11 ⟨1, "t", none, none, 0, 0⟩)).2.2 = [] := by
  exact ⟨⟨rfl, by decide⟩, rfl⟩

/-- C9 (amended): during subscriber refresh the engine pauses after the
channel at zero-based index `idx` exactly when `idx % 10 = 0` *and* that
channel's fetch succeeded (so after the 1st, 11th, 21st, … channels, and
never on a failed fetch); in the bulk range add it pauses at offsets `i`
with `i % 10 = 0` regardless of the fetch outcome, except offsets skipped
as the operator id. -/
theorem pause_cadence_amended :
    (∀ (fetch : Int → InfoOutcome) (now : Int) (db sel : List ChannelRec),
      (refreshLoop fetch now db sel).2.2 =
        ((sel.enumFrom 0).filter
          (fun p => decide (p.1 % 10 = 0) && (fetch p.2.id).isOk)).map
            Prod.fst) ∧
    (∀ (fetch : Int → InfoOutcome) (admin s e : Int) (db : List ChannelRec),
      s ≤ e →
      (add_range_command fetch admin s e db).pauses =
        (List.range (e - s + 1).toNat).filter
          (fun (i : Nat) => decide (i % 10 = 0) && ! decide (s + (i : Int) = admin))) := by
  constructor
  · intro fetch now db sel
    exact refreshGo_pauses fetch now sel 0 db
  · intro fetch admin s e db hse
    have hnorm : ¬ s > e := by omega
    simp only [add_range_command, if_neg hnorm]
    rw [addRangeGo_pauses]
    rfl

/-- Witness for the amended C9: one successful channel pauses at index 0;
a range `[1, 3]` with no admin exclusion pauses at offset 0 only. -/
theorem pause_cadence_amended_witness :
    (refreshLoop (fun _ => .success ⟨1, "t", none, none, 0⟩) 0
        [⟨1, "t", none, none, 0, 0⟩] [⟨1, "t", none, none, 0, 0⟩]).2.2 =
      ((([⟨1, "t", none, none, 0, 0⟩] : List ChannelRec).enumFrom 0).filter
        (fun p => decide (p.1 % 10 = 0) &&
          ((fun _ : Int => InfoOutcome.success ⟨1, "t", none, none, 0⟩)
            p.2.id).isOk)).map Prod.fst ∧
    (add_range_command (fun _ => .failure 1 "u" "e") 9 1 3 []).pauses =
      (List.range ((3 : Int) - 1 + 1).toNat).filter
        (fun (i : Nat) => decide (i % 10 = 0) && ! decide ((1 : Int) + (i : Int) = 9)) :=
  ⟨pause_cadence_amended.1 (fun _ => .success ⟨1, "t", none, none, 0⟩) 0
      [⟨1, "t", none, none, 0, 0⟩] [⟨1, "t", none, none, 0, 0⟩],
   pause_cadence_amended.2 (fun _ => .failure 1 "u" "e") 9 1 3 []
     (by norm_num)⟩

/-- C8: bulk range add over the inclusive range `[100, 104]` with id 102
failing as not accessible and every other id fetching successfully (and
the operator id outside the range): exactly the four channels
100/101/103/104 end up in the store, `added_count = 4`, and the completion
report states 5 processed and 4 added. -/
theorem range_add_tolerates_failure
    (fetch : Int → InfoOutcome) (admin : Int)
    (i100 i101 i103 i104 : ChannelInfo) (t e : String)
    (hf100 : fetch 100 = .success i100) (hf101 : fetch 101 = .success i101)
    (hf102 : fetch 102 = .failure 102 t e)
    (hf103 : fetch 103 = .success i103) (hf104 : fetch 104 = .success i104)
    (hid100 : i100.id = 100) (hid101 : i101.id = 101)
    (hid103 : i103.id = 103) (hid104 : i104.id = 104)
    (hadmin : admin < 100 ∨ 104 < admin) :
    (add_range_command fetch admin 100 104 []).added = 4 ∧
    (add_range_command fetch admin 100 104 []).report = (5, 4) ∧
    (dbIds (add_range_command fetch admin 100 104 []).db).toFinset =
      ({100, 101, 103, 104} : Finset Int) := by
  have e100 : ¬ ((100 : Int) = admin) := by rcases hadmin with h | h <;> omega
  have e101 : ¬ ((101 : Int) = admin) := by rcases hadmin with h | h <;> omega
  have e102 : ¬ ((102 : Int) = admin) := by rcases hadmin with h | h <;> omega
  have e103 : ¬ ((103 : Int) = admin) := by rcases hadmin with h | h <;> omega
  have e104 : ¬ ((104 : Int) = admin) := by rcases hadmin with h | h <;> omega
  have hn : (((104 : Int) - 100 + 1)).toNat = 5 := by decide
  have hr5 : List.range 5 = [0, 1, 2, 3, 4] := by rfl
  have hno : ¬ ((100 : Int) > 104) := by norm_num
  simp only [add_range_command, if_neg hno, hn, hr5]
  norm_num [addRangeGo, add_channel_to_db, dbIds,
    hf100, hf101, hf102, hf103, hf104,
    hid100, hid101, hid103, hid104,
    e100, e101, e102, e103, e104]

/-- Witness for C8: a concrete gateway failing exactly on 102, operator
id 0. -/
theorem range_add_tolerates_failure_witness :
    (add_range_command
      (fun cid => if cid = 102
        then .failure 102 "Unknown (Private Channel)" "ChannelPrivateError"
        else .success ⟨cid, "t", none, none, 7⟩) 0 100 104 []).added = 4 ∧
    (add_range_command
      (fun cid => if cid = 102
        then .failure 102 "Unknown (Private Channel)" "ChannelPrivateError"
        else .success ⟨cid, "t", none, none, 7⟩) 0 100 104 []).report = (5, 4) ∧
    (dbIds (add_range_command
      (fun cid => if cid = 102
        then .failure 102 "Unknown (Private Channel)" "ChannelPrivateError"
        else .success ⟨cid, "t", none, none, 7⟩) 0 100 104 []).db).toFinset =
      ({100, 101, 103, 104} : Finset Int) :=
  range_add_tolerates_failure _ 0
    ⟨100, "t", none, none, 7⟩ ⟨101, "t", none, none, 7⟩
    ⟨103, "t", none, none, 7⟩ ⟨104, "t", none, none, 7⟩
    "Unknown (Private Channel)" "ChannelPrivateError"
    (by decide) (by decide) (by decide) (by decide) (by decide)
    rfl rfl rfl rfl (Or.inl (by norm_num))

/-! ### Membership characterisations of the reconciliation loops -/

theorem mem_dbIds_processNew (fetch : Int → InfoOutcome)
    (hid : ∀ cid info, fetch cid = .success info → info.id = cid) :
    ∀ (ids : List Int) (db : List ChannelRec) (x : Int),
    x ∈ dbIds (processNew fetch db ids).1 ↔
      x ∈ dbIds db ∨ (x ∈ ids ∧ (fetch x).isOk = true) := by
  intro ids
  induction ids with
  | nil => intro db x; simp [processNew]
  | cons cid ids ih =>
    intro db x
    cases hf : fetch cid with
    | success info =>
      have hcid : info.id = cid := hid cid info hf
      have himp : x = cid → (fetch x).isOk = true := by
        intro h; rw [h, hf]; rfl
      simp only [processNew, hf]
      rw [ih, mem_dbIds_add, hcid, List.mem_cons]
      tauto
    | failure i t e =>
      have himp : ¬ (x = cid ∧ (fetch x).isOk = true) := by
        rintro ⟨h1, h2⟩
        rw [h1, hf] at h2
        simp [InfoOutcome.isOk] at h2
      simp only [processNew, hf]
      rw [ih, List.mem_cons]
      tauto
    | notChannel =>
      have himp : ¬ (x = cid ∧ (fetch x).isOk = true) := by
        rintro ⟨h1, h2⟩
        rw [h1, hf] at h2
        simp [InfoOutcome.isOk] at h2
      simp only [processNew, hf]
      rw [ih, List.mem_cons]
      tauto

theorem processNew_all_fail (fetch : Int → InfoOutcome) :
    ∀ (ids : List Int) (db : List ChannelRec),
    (∀ cid ∈ ids, (fetch cid).isOk = false) →
    processNew fetch db ids = (db, []) := by
  intro ids
  induction ids with
  | nil => intro db _; rfl
  | cons cid ids ih =>
    intro db hfail
    cases hf : fetch cid with
    | success info =>
      have := hfail cid (List.mem_cons_self cid ids)
      rw [hf] at this
      simp [InfoOutcome.isOk] at this
    | failure i t e =>
      simp only [processNew, hf]
      exact ih db (fun c hc => hfail c (List.mem_cons_of_mem cid hc))
    | notChannel =>
      simp only [processNew, hf]
      exact ih db (fun c hc => hfail c (List.mem_cons_of_mem cid hc))

theorem mem_dbIds_processRemoved (dbOrig : List ChannelRec) :
    ∀ (ids : List Int) (db : List ChannelRec) (x : Int),
    x ∈ dbIds (processRemoved dbOrig db ids).1 ↔
      x ∈ dbIds db ∧ ∀ cid ∈ ids, cid ∈ dbIds dbOrig → x ≠ cid := by
  intro ids
  induction ids with
  | nil => intro db x; simp [processRemoved]
  | cons cid ids ih =>
    intro db x
    cases hl : lookupChannel dbOrig cid with
    | none =>
      have hnm : cid ∉ dbIds dbOrig := by
        rw [← lookupChannel_isSome_iff, hl]
        simp
      simp only [processRemoved, hl]
      rw [ih]
      simp only [List.mem_cons]
      constructor
      · rintro ⟨h1, h2⟩
        refine ⟨h1, fun c hc hm => ?_⟩
        rcases hc with rfl | hc
        · exact absurd hm hnm
        · exact h2 c hc hm
      · rintro ⟨h1, h2⟩
        exact ⟨h1, fun c hc hm => h2 c (Or.inr hc) hm⟩
    | some r =>
      have hm : cid ∈ dbIds dbOrig := by
        rw [← lookupChannel_isSome_iff, hl]
        simp
      have hgoal : x ∈ dbIds (processRemoved dbOrig
          (remove_channel_from_db db cid).1 ids).1 ↔
          x ∈ dbIds db ∧ ∀ c ∈ cid :: ids, c ∈ dbIds dbOrig → x ≠ c := by
        rw [ih, mem_dbIds_remove]
        simp only [List.mem_cons]
        constructor
        · rintro ⟨⟨h1, hne⟩, h2⟩
          refine ⟨h1, fun c hc hmo => ?_⟩
          rcases hc with rfl | hc
          · exact hne
          · exact h2 c hc hmo
        · rintro ⟨h1, h2⟩
          exact ⟨⟨h1, h2 cid (Or.inl rfl) hm⟩,
            fun c hc hmo => h2 c (Or.inr hc) hmo⟩
      simp only [processRemoved, hl]
      cases hb : (remove_channel_from_db db cid).2 <;> simpa [hb] using hgoal

/-- C2: membership reconciliation is idempotent — with the gateway resolving
each fetch the same way in both cycles (it is a function of the channel id)
and yielding entities whose id matches the requested id, running
`reconcileMembership` a second time with the same live set and no
intervening store mutation leaves the store exactly as it was and sends no
notification. -/
theorem reconcile_idempotent (fetch : Int → InfoOutcome) (live : List Int)
    (db : List ChannelRec)
    (hid : ∀ cid info, fetch cid = .success info → info.id = cid) :
    reconcileMembership fetch live (reconcileMembership fetch live db).1 =
      ((reconcileMembership fetch live db).1, []) := by
  set db2 := (reconcileMembership fetch live db).1 with hdb2
  have hmem2 : ∀ x, x ∈ dbIds db2 ↔
      ((x ∈ dbIds db ∨ (x ∈ new_channels live db ∧ (fetch x).isOk = true)) ∧
       ∀ cid ∈ removed_channels live db, cid ∈ dbIds db → x ≠ cid) := by
    intro x
    rw [hdb2]
    simp only [reconcileMembership]
    rw [mem_dbIds_processRemoved, mem_dbIds_processNew fetch hid]
  have hsub : ∀ x ∈ dbIds db2, x ∈ live := by
    intro x hx
    rw [hmem2] at hx
    obtain ⟨h1, h2⟩ := hx
    rcases h1 with hdb | ⟨hnew, _⟩
    · by_contra hnl
      have hrem : x ∈ removed_channels live db := by
        simp only [removed_channels, List.mem_filter, decide_eq_true_eq]
        exact ⟨hdb, hnl⟩
      exact h2 x hrem hdb rfl
    · exact (List.mem_filter.mp hnew).1
  have hok_mem : ∀ x ∈ live, (fetch x).isOk = true → x ∈ dbIds db2 := by
    intro x hlive hok
    rw [hmem2]
    constructor
    · by_cases hdb : x ∈ dbIds db
      · exact Or.inl hdb
      · refine Or.inr ⟨?_, hok⟩
        simp only [new_channels, List.mem_filter, decide_eq_true_eq]
        exact ⟨hlive, hdb⟩
    · intro cid hcid _ hxc
      have hnl : cid ∉ live := by
        have := (List.mem_filter.mp hcid).2
        simpa using this
      exact hnl (hxc ▸ hlive)
  have hrem2 : removed_channels live db2 = [] := by
    apply List.filter_eq_nil_iff.mpr
    intro a ha
    simp only [decide_eq_true_eq]
    exact not_not_intro (hsub a ha)
  have hnew2 : ∀ cid ∈ new_channels live db2, (fetch cid).isOk = false := by
    intro cid hcid
    have h1 := (List.mem_filter.mp hcid).1
    have h2 : cid ∉ dbIds db2 := by
      have := (List.mem_filter.mp hcid).2
      simpa using this
    cases hok : (fetch cid).isOk
    · rfl
    · exact absurd (hok_mem cid h1 hok) h2
  show reconcileMembership fetch live db2 = (db2, [])
  simp only [reconcileMembership]
  rw [processNew_all_fail fetch (new_channels live db2) db2 hnew2, hrem2]
  rfl

/-- Witness for C2: a gateway answering every id successfully with a
matching entity id; one live set `[3, 4]`, one initially tracked stale
channel `9`. -/
theorem reconcile_idempotent_witness :
    reconcileMembership (fun cid => .success ⟨cid, "t", none, none, 7⟩) [3, 4]
      (reconcileMembership (fun cid => .success ⟨cid, "t", none, none, 7⟩)
        [3, 4] [⟨9, "z", none, none, 0, 0⟩]).1 =
    ((reconcileMembership (fun cid => .success ⟨cid, "t", none, none, 7⟩)
        [3, 4] [⟨9, "z", none, none, 0, 0⟩]).1, []) :=
  reconcile_idempotent _ [3, 4] [⟨9, "z", none, none, 0, 0⟩]
    (fun cid info h => by
      injection h with h1
      rw [← h1])

end ChannelTr
